import Mathlib

/-
Shallow embedding of the attendance status/record engine of `src/db.js`
(class `recordAttendance`, `calculateAttendanceStatus`, `getTodayAttendance`,
`getTodayStats`, `window.db.markAbsent`) together with the IndexedDB
object-store primitives they use (`put` on the autoincrement `attendance`
store, `getStudent`, `updateStudent`, `getCurrentSessionId`, `getSettings`).

Timestamps are modelled as a calendar-day index plus minutes-of-day as a
rational number (JS computes `(currentTime - workStart) / 60000`, which can
be fractional; `Math.round` is Mathlib's `round`, both round half toward
positive infinity).
-/

namespace Haithm

/-- Attendance status enum used by the source: 'present' | 'late' | 'absent'. -/
inductive Status where
  | present
  | late
  | absent
deriving DecidableEq, BEq, Repr

/-- A point in time: calendar date (day index, standing for the YYYY-MM-DD
part of the ISO string) and minutes elapsed since local midnight. -/
structure Timestamp where
  dateISO : ℕ
  minutesOfDay : ℚ
deriving DecidableEq, Repr

/-- A row of the `students` object store (keyPath `id`). -/
structure Student where
  id : String
  name : String
  grade : String
  className : String
  guardianPhone : String
  lateDays : ℕ
  lateMinutesTotal : ℤ
deriving DecidableEq, Repr

/-- A row of the `attendance` object store (keyPath `id`, autoIncrement).
`id = none` models a not-yet-stored object with no `id` field; `reason`,
`markedBy`, `isManual` are set only by `markAbsent` (JS leaves them
undefined on check-in records, modelled as ""/none/false). -/
structure AttendanceRecord where
  id : Option ℕ
  studentId : String
  dateISO : ℕ
  timeISO : ℚ
  status : Status
  lateMinutes : ℤ
  sessionId : Option ℕ
  isRepeat : Bool
  reason : String
  markedBy : Option String
  isManual : Bool
deriving DecidableEq, Repr

/-- The `settings` row: `workStartHHmm` parsed as (hour, minute); `none`
models an unset/empty (falsy) field, so the `||` defaults of the source
apply. -/
structure Settings where
  workStartHHmm : Option (ℕ × ℕ)
  lateThresholdMin : Option ℕ
deriving DecidableEq, Repr

/-- `settings.workStartHHmm || '07:00'`. -/
def Settings.workStart (s : Settings) : ℕ × ℕ :=
  s.workStartHHmm.getD (7, 0)

/-- `settings.lateThresholdMin || 15`: JS `||` replaces both `undefined`
and `0` (falsy) by 15. -/
def Settings.lateThreshold (s : Settings) : ℕ :=
  match s.lateThresholdMin with
  | none => 15
  | some n => if n = 0 then 15 else n

/-- A row of the `sessions` store, as far as `getCurrentSessionId` reads it. -/
structure Session where
  id : ℕ
  active : Bool
deriving DecidableEq, Repr

/-- The `attendance` object store: stored rows plus the autoincrement key
generator state. -/
structure AttendanceStore where
  records : List AttendanceRecord
  nextId : ℕ
deriving DecidableEq, Repr

/-- IndexedDB `store.put(data)` on the autoincrement `attendance` store:
if `data` carries an `id`, the row with that key is replaced (or the row is
inserted under that key if absent); otherwise a fresh key is generated and
the row appended. Returns the store and the key of the written row. -/
def AttendanceStore.put (s : AttendanceStore) (r : AttendanceRecord) :
    AttendanceStore × ℕ :=
  match r.id with
  | some i =>
      if s.records.any (fun x => x.id == some i) then
        ({ s with records := s.records.map (fun x => if x.id == some i then r else x) }, i)
      else
        ({ s with records := s.records ++ [r] }, i)
  | none =>
      ({ records := s.records ++ [{ r with id := some s.nextId }],
         nextId := s.nextId + 1 }, s.nextId)

/-- The slice of the database the attendance engine touches. -/
structure DB where
  students : List Student
  attendance : AttendanceStore
  settings : Settings
  sessions : List Session
deriving DecidableEq, Repr

/-- `getStudent(id)`: keyed get on the `students` store. -/
def DB.getStudent (db : DB) (id : String) : Option Student :=
  db.students.find? (fun s => s.id == id)

/-- `updateStudent(studentId, { lateDays, lateMinutesTotal })` as called by
`recordAttendance`: merge the two fields into the existing row and put it
back. -/
def DB.updateStudent (db : DB) (id : String) (lateDays : ℕ)
    (lateMinutesTotal : ℤ) : DB :=
  { db with students := db.students.map (fun s =>
      if s.id == id then { s with lateDays := lateDays, lateMinutesTotal := lateMinutesTotal } else s) }

/-- `getCurrentSessionId()`: id of the first active session, else null. -/
def DB.getCurrentSessionId (db : DB) : Option ℕ :=
  ((db.sessions.filter (fun s => s.active)).head?).map (fun s => s.id)

/-- Result of `calculateAttendanceStatus`. -/
structure ClassifierResult where
  actualStatus : Status
  calculatedLateMinutes : ℤ
deriving DecidableEq, Repr

/-- `calculateAttendanceStatus(currentTime, workStartTime, lateThresholdMin)`:
`diffMinutes = max(0, currentTime - workStart)` in minutes on the same
calendar day; late iff `diffMinutes > lateThresholdMin`, with
`lateMinutes = Math.round(diffMinutes)`, else present with 0. -/
def calculateAttendanceStatus (currentMinutes : ℚ) (workStartTime : ℕ × ℕ)
    (lateThresholdMin : ℕ) : ClassifierResult :=
  let workStartMinutes : ℚ := workStartTime.1 * 60 + workStartTime.2
  let diffMinutes : ℚ := max 0 (currentMinutes - workStartMinutes)
  if diffMinutes > (lateThresholdMin : ℚ) then
    { actualStatus := Status.late, calculatedLateMinutes := round diffMinutes }
  else
    { actualStatus := Status.present, calculatedLateMinutes := 0 }

/-- `getTodayAttendance(studentId)`: first row of the `studentDate` index for
`[studentId, today]` (index scan returns matches in primary-key order, which
is the store's insertion order), or null. -/
def DB.getTodayAttendance (db : DB) (studentId : String) (today : ℕ) :
    Option AttendanceRecord :=
  (db.attendance.records.filter
    (fun r => r.studentId == studentId && r.dateISO == today)).head?

/-- Return value of `recordAttendance`. -/
structure CheckInResult where
  record : AttendanceRecord
  isRepeat : Bool
  student : Student
deriving DecidableEq, Repr

/-- `recordAttendance(studentId, status = 'present', lateMinutes = 0)`.
The `status` and `lateMinutes` parameters are accepted but never read by
the body: status and lateness are recomputed from the clock and settings.
Throws (models as `.error`) the Arabic "student not found" message before
any write when the student id is unknown. -/
def DB.recordAttendance (db : DB) (studentId : String) (now : Timestamp)
    (status : Status) (lateMinutes : ℤ) :
    Except String (DB × CheckInResult) :=
  match db.getStudent studentId with
  | none => Except.error "الطالب غير موجود"
  | some student =>
    let workStartTime := db.settings.workStart
    let lateThresholdMin := db.settings.lateThreshold
    let c := calculateAttendanceStatus now.minutesOfDay workStartTime lateThresholdMin
    match db.getTodayAttendance studentId now.dateISO with
    | some existingRecord =>
        let updated : AttendanceRecord :=
          { existingRecord with
            timeISO := now.minutesOfDay,
            status := if c.actualStatus = Status.late then Status.late else existingRecord.status,
            lateMinutes := max existingRecord.lateMinutes c.calculatedLateMinutes,
            isRepeat := true }
        let store := (db.attendance.put updated).1
        Except.ok ({ db with attendance := store },
          { record := updated, isRepeat := true, student := student })
    | none =>
        let attendanceRecord : AttendanceRecord :=
          { id := none,
            studentId := studentId,
            dateISO := now.dateISO,
            timeISO := now.minutesOfDay,
            status := c.actualStatus,
            lateMinutes := c.calculatedLateMinutes,
            sessionId := db.getCurrentSessionId,
            isRepeat := false,
            reason := "",
            markedBy := none,
            isManual := false }
        let store := (db.attendance.put attendanceRecord).1
        let recordId := (db.attendance.put attendanceRecord).2
        let record := { attendanceRecord with id := some recordId }
        let db1 : DB := { db with attendance := store }
        let db2 : DB :=
          if c.actualStatus = Status.late ∧ c.calculatedLateMinutes > 0 then
            db1.updateStudent studentId (student.lateDays + 1)
              (student.lateMinutesTotal + c.calculatedLateMinutes)
          else db1
        Except.ok (db2, { record := record, isRepeat := false, student := student })

/-- Return value of `markAbsent`: `{success:false, message}` or
`{success:true, data}`. -/
inductive MarkAbsentResult where
  | conflict (message : String)
  | ok (data : AttendanceRecord)
deriving DecidableEq, Repr

/-- `window.db.markAbsent(studentId, dateISO, sessionId = null, reason = '')`:
scans all attendance rows for one matching (studentId, dateISO); on a match
returns the conflict object without writing; otherwise inserts an absent
record with `lateMinutes = 0`. It never consults the student directory. -/
def DB.markAbsent (db : DB) (studentId : String) (dateISO : ℕ)
    (now : Timestamp) (sessionId : Option ℕ) (reason : String) :
    DB × MarkAbsentResult :=
  match db.attendance.records.find?
      (fun r => r.studentId == studentId && r.dateISO == dateISO) with
  | some _ => (db, MarkAbsentResult.conflict "سجل الحضور موجود مسبقاً")
  | none =>
      let absentRecord : AttendanceRecord :=
        { id := none,
          studentId := studentId,
          dateISO := dateISO,
          timeISO := now.minutesOfDay,
          status := Status.absent,
          lateMinutes := 0,
          sessionId := sessionId,
          isRepeat := false,
          reason := reason,
          markedBy := some "admin",
          isManual := true }
      let store := (db.attendance.put absentRecord).1
      let recordId := (db.attendance.put absentRecord).2
      ({ db with attendance := store },
        MarkAbsentResult.ok { absentRecord with id := some recordId })

/-- The name/time pair `getTodayStats` builds for the first/last student
(`time` is kept as the raw minutes-of-day instead of the locale string). -/
structure StudentTimeEntry where
  name : String
  time : ℚ
deriving DecidableEq, Repr

/-- Return value of `getTodayStats`. -/
structure TodayStats where
  presentCount : ℕ
  lateCount : ℕ
  absentCount : ℤ
  attendanceRatio : ℤ
  firstStudent : Option StudentTimeEntry
  lastStudent : Option StudentTimeEntry
  totalStudents : ℕ
deriving DecidableEq, Repr

/-- `getTodayStats()`: counts over today's rows, absent = directory size −
(present + late), ratio guarded against an empty directory, and first/last
rows of today's attendance sorted by check-in time; `lastStudent` is
populated only when the last row's id differs from the first row's id. -/
def DB.getTodayStats (db : DB) (today : ℕ) : TodayStats :=
  let todayAttendance := db.attendance.records.filter (fun r => r.dateISO == today)
  let presentCount := (todayAttendance.filter (fun a => a.status == Status.present)).length
  let lateCount := (todayAttendance.filter (fun a => a.status == Status.late)).length
  let totalPresent := presentCount + lateCount
  let absentCount : ℤ := (db.students.length : ℤ) - totalPresent
  let attendanceRatio : ℤ :=
    if db.students.length > 0 then
      round (((totalPresent : ℚ) / (db.students.length : ℚ)) * 100)
    else 0
  let sortedAttendance := todayAttendance.mergeSort
    (fun a b => decide (a.timeISO ≤ b.timeISO))
  let firstStudentRecord := sortedAttendance.head?
  let lastStudentRecord := sortedAttendance.getLast?
  let firstStudent : Option StudentTimeEntry :=
    firstStudentRecord.map (fun r =>
      { name := ((db.getStudent r.studentId).map (fun s => s.name)).getD "غير محدد",
        time := r.timeISO })
  let lastStudent : Option StudentTimeEntry :=
    match lastStudentRecord with
    | some r =>
        if r.id ≠ firstStudentRecord.bind (fun fr => fr.id) then
          some { name := ((db.getStudent r.studentId).map (fun s => s.name)).getD "غير محدد",
                 time := r.timeISO }
        else none
    | none => none
  { presentCount := presentCount,
    lateCount := lateCount,
    absentCount := absentCount,
    attendanceRatio := attendanceRatio,
    firstStudent := firstStudent,
    lastStudent := lastStudent,
    totalStudents := db.students.length }

/-! ### Derived forms of the write path -/

/-- The merged record written by `recordAttendance` on a repeat check-in. -/
def mergedRecord (db : DB) (ex : AttendanceRecord) (now : Timestamp) :
    AttendanceRecord :=
  let c := calculateAttendanceStatus now.minutesOfDay db.settings.workStart
    db.settings.lateThreshold
  { ex with
    timeISO := now.minutesOfDay,
    status := if c.actualStatus = Status.late then Status.late else ex.status,
    lateMinutes := max ex.lateMinutes c.calculatedLateMinutes,
    isRepeat := true }

/-- The fresh record built by `recordAttendance` when no same-day record
exists (before the store assigns its id). -/
def newRecord (db : DB) (studentId : String) (now : Timestamp) :
    AttendanceRecord :=
  let c := calculateAttendanceStatus now.minutesOfDay db.settings.workStart
    db.settings.lateThreshold
  { id := none,
    studentId := studentId,
    dateISO := now.dateISO,
    timeISO := now.minutesOfDay,
    status := c.actualStatus,
    lateMinutes := c.calculatedLateMinutes,
    sessionId := db.getCurrentSessionId,
    isRepeat := false,
    reason := "",
    markedBy := none,
    isManual := false }

/-- "At most one attendance record per (studentId, calendarDate)". -/
def KeyUnique (l : List AttendanceRecord) : Prop :=
  l.Pairwise (fun a b => ¬(a.studentId = b.studentId ∧ a.dateISO = b.dateISO))

/-- Well-formedness of the autoincrement store: stored ids are pairwise
distinct, present, and below the key generator. Holds for every store
reachable from a fresh one. -/
def IdsOk (s : AttendanceStore) : Prop :=
  (s.records.map (fun r => r.id)).Pairwise (fun a b => a ≠ b) ∧
  ∀ r ∈ s.records, ∃ i, r.id = some i ∧ i < s.nextId

/-- One kiosk check-in call, with the caller-supplied (ignored) arguments. -/
structure CheckInCall where
  studentId : String
  now : Timestamp
  status : Status
  lateMinutes : ℤ

/-- Run a sequence of `recordAttendance` calls; a call that throws leaves
the database unchanged (the source throws before any write). -/
def runCheckIns (db : DB) (calls : List CheckInCall) : DB :=
  calls.foldl (fun d c =>
    match d.recordAttendance c.studentId c.now c.status c.lateMinutes with
    | Except.ok (d', _) => d'
    | Except.error _ => d) db

/-! ### Helper lemmas -/

/-- Because of the `|| 15` default, the effective late threshold used by
`recordAttendance` is always at least 1. -/
theorem one_le_lateThreshold (s : Settings) : 1 ≤ s.lateThreshold := by
  unfold Settings.lateThreshold
  match s.lateThresholdMin with
  | none => norm_num
  | some n =>
    by_cases h : n = 0
    · simp [h]
    · simp [h]
      omega

/-- Evaluation of the classifier at a whole-minute check-in time. -/
theorem calculateAttendanceStatus_nat (t wh wm th : ℕ) :
    calculateAttendanceStatus (t : ℚ) (wh, wm) th =
      (if wh * 60 + wm + th < t then
        { actualStatus := Status.late,
          calculatedLateMinutes := ((t - (wh * 60 + wm) : ℕ) : ℤ) }
      else { actualStatus := Status.present, calculatedLateMinutes := 0 }) := by
  unfold calculateAttendanceStatus
  rcases le_or_lt t (wh * 60 + wm) with hle | hlt
  · have hd : (t : ℚ) - ((wh : ℚ) * 60 + wm) ≤ 0 := by
      have : (t : ℚ) ≤ (wh : ℚ) * 60 + wm := by exact_mod_cast hle
      linarith
    have hmax : max 0 ((t : ℚ) - ((wh : ℚ) * 60 + wm)) = 0 := max_eq_left hd
    simp only [hmax]
    rw [if_neg (not_lt.mpr (Nat.cast_nonneg th)), if_neg (by omega)]
  · have hd : (t : ℚ) - ((wh : ℚ) * 60 + wm) ≥ 0 := by
      have : ((wh : ℚ) * 60 + wm) ≤ (t : ℚ) := by exact_mod_cast hlt.le
      linarith
    have hmax : max 0 ((t : ℚ) - ((wh : ℚ) * 60 + wm)) =
        ((t - (wh * 60 + wm) : ℕ) : ℚ) := by
      rw [max_eq_right hd, Nat.cast_sub hlt.le]
      push_cast
      ring
    simp only [hmax]
    by_cases hth : wh * 60 + wm + th < t
    · rw [if_pos (by exact_mod_cast (by omega : th < t - (wh * 60 + wm))),
        if_pos hth, round_natCast]
    · rw [if_neg (by exact_mod_cast (by omega : ¬ th < t - (wh * 60 + wm))),
        if_neg hth]

/-- If the classifier (run with an effective threshold, hence ≥ 1) reports
late, the computed late minutes are strictly positive. -/
theorem classifier_late_pos (t : ℚ) (ws : ℕ × ℕ) (th : ℕ) (hth : 1 ≤ th)
    (h : (calculateAttendanceStatus t ws th).actualStatus = Status.late) :
    0 < (calculateAttendanceStatus t ws th).calculatedLateMinutes := by
  unfold calculateAttendanceStatus at *
  by_cases hc : max 0 (t - ((ws.1 : ℚ) * 60 + ws.2)) > (th : ℚ)
  · simp only [if_pos hc] at *
    have h1 : (1 : ℚ) ≤ max 0 (t - ((ws.1 : ℚ) * 60 + ws.2)) := by
      have : (1 : ℚ) ≤ (th : ℚ) := by exact_mod_cast hth
      linarith
    have h2 : (1 : ℤ) ≤ round (max 0 (t - ((ws.1 : ℚ) * 60 + ws.2))) := by
      rw [round_eq]
      exact Int.le_floor.mpr (by push_cast; linarith)
    omega
  · simp only [if_neg hc] at h
    exact absurd h (by decide)

/-- A same-day lookup returns `none` exactly when no stored record has that
(studentId, date) key. -/
theorem getTodayAttendance_eq_none_iff (db : DB) (sid : String) (d : ℕ) :
    db.getTodayAttendance sid d = none ↔
      ∀ r ∈ db.attendance.records, ¬(r.studentId = sid ∧ r.dateISO = d) := by
  unfold DB.getTodayAttendance
  rw [List.head?_eq_none_iff, List.filter_eq_nil_iff]
  constructor
  · intro h r hr
    have := h r hr
    simpa using this
  · intro h r hr
    have := h r hr
    simpa using this

/-- A same-day lookup that succeeds returns a stored record with that
(studentId, date) key. -/
theorem getTodayAttendance_eq_some (db : DB) (sid : String) (d : ℕ)
    (ex : AttendanceRecord) (h : db.getTodayAttendance sid d = some ex) :
    ex ∈ db.attendance.records ∧ ex.studentId = sid ∧ ex.dateISO = d := by
  unfold DB.getTodayAttendance at h
  have hmem := List.mem_of_mem_head? h
  rw [List.mem_filter] at hmem
  refine ⟨hmem.1, ?_, ?_⟩
  · have := hmem.2
    simp only [Bool.and_eq_true, beq_iff_eq] at this
    exact this.1
  · have := hmem.2
    simp only [Bool.and_eq_true, beq_iff_eq] at this
    exact this.2

/-- In a list of records with pairwise-distinct ids, two members with the
same id are the same record. -/
theorem eq_of_mem_of_id_eq {l : List AttendanceRecord}
    (hp : (l.map (fun r => r.id)).Pairwise (fun a b => a ≠ b)) :
    ∀ x ∈ l, ∀ y ∈ l, x.id = y.id → x = y := by
  rw [List.pairwise_map] at hp
  induction hp with
  | nil => intro x hx; simp at hx
  | cons hhead _ ih =>
    intro x hx y hy hxy
    rcases List.mem_cons.mp hx with hxa | hx' <;>
      rcases List.mem_cons.mp hy with hya | hy'
    · rw [hxa, hya]
    · exfalso
      apply hhead y hy'
      rw [← hxa]
      exact hxy
    · exfalso
      apply hhead x hx'
      rw [← hya]
      exact hxy.symm
    · exact ih x hx' y hy' hxy

/-- The repeat path of `recordAttendance`, in closed form. -/
theorem recordAttendance_some_eq (db : DB) (sid : String) (now : Timestamp)
    (st : Status) (lm : ℤ) (student : Student) (ex : AttendanceRecord)
    (hs : db.getStudent sid = some student)
    (hex : db.getTodayAttendance sid now.dateISO = some ex) :
    db.recordAttendance sid now st lm =
      Except.ok
        ({ db with attendance := (db.attendance.put (mergedRecord db ex now)).1 },
         { record := mergedRecord db ex now, isRepeat := true, student := student }) := by
  unfold DB.recordAttendance
  rw [hs, hex]
  rfl

/-- The fresh-record path of `recordAttendance`, in closed form. -/
theorem recordAttendance_none_eq (db : DB) (sid : String) (now : Timestamp)
    (st : Status) (lm : ℤ) (student : Student)
    (hs : db.getStudent sid = some student)
    (hnone : db.getTodayAttendance sid now.dateISO = none) :
    db.recordAttendance sid now st lm =
      Except.ok
        ((if (calculateAttendanceStatus now.minutesOfDay db.settings.workStart
              db.settings.lateThreshold).actualStatus = Status.late ∧
            (calculateAttendanceStatus now.minutesOfDay db.settings.workStart
              db.settings.lateThreshold).calculatedLateMinutes > 0 then
            DB.updateStudent
              { db with attendance := (db.attendance.put (newRecord db sid now)).1 }
              sid (student.lateDays + 1)
              (student.lateMinutesTotal +
                (calculateAttendanceStatus now.minutesOfDay db.settings.workStart
                  db.settings.lateThreshold).calculatedLateMinutes)
          else { db with attendance := (db.attendance.put (newRecord db sid now)).1 }),
         { record := { newRecord db sid now with
              id := some (db.attendance.put (newRecord db sid now)).2 },
           isRepeat := false, student := student }) := by
  unfold DB.recordAttendance
  rw [hs, hnone]
  rfl

/-- `put` of a row that already carries a stored id replaces that row. -/
theorem put_replace_eq (s : AttendanceStore) (r : AttendanceRecord) (i : ℕ)
    (hid : r.id = some i)
    (hany : s.records.any (fun x => x.id == some i) = true) :
    s.put r =
      ({ s with records := s.records.map (fun x => if x.id == some i then r else x) }, i) := by
  unfold AttendanceStore.put
  rw [hid]
  simp only [hany, if_true]

/-- `put` of a row without an id appends it under a fresh key. -/
theorem put_fresh_eq (s : AttendanceStore) (r : AttendanceRecord)
    (hid : r.id = none) :
    s.put r =
      ({ records := s.records ++ [{ r with id := some s.nextId }],
         nextId := s.nextId + 1 }, s.nextId) := by
  unfold AttendanceStore.put
  rw [hid]

/-- The merge written on a repeat keeps the row's identity fields. -/
theorem mergedRecord_fields (db : DB) (ex : AttendanceRecord) (now : Timestamp) :
    (mergedRecord db ex now).id = ex.id ∧
    (mergedRecord db ex now).studentId = ex.studentId ∧
    (mergedRecord db ex now).dateISO = ex.dateISO := ⟨rfl, rfl, rfl⟩

/-- A successful `recordAttendance` call preserves both store invariants. -/
theorem recordAttendance_preserves_inv (db : DB) (sid : String) (now : Timestamp)
    (st : Status) (lm : ℤ) (db' : DB) (res : CheckInResult)
    (hK : KeyUnique db.attendance.records) (hI : IdsOk db.attendance)
    (h : db.recordAttendance sid now st lm = Except.ok (db', res)) :
    KeyUnique db'.attendance.records ∧ IdsOk db'.attendance := by
  cases hstu : db.getStudent sid with
  | none =>
      unfold DB.recordAttendance at h
      rw [hstu] at h
      exact absurd h (by simp)
  | some student =>
    cases hex : db.getTodayAttendance sid now.dateISO with
    | none =>
        rw [recordAttendance_none_eq db sid now st lm student hstu hex,
          put_fresh_eq db.attendance (newRecord db sid now) rfl] at h
        simp only [Except.ok.injEq, Prod.mk.injEq] at h
        have hatt : db'.attendance =
            { records := db.attendance.records ++
                [{ newRecord db sid now with id := some db.attendance.nextId }],
              nextId := db.attendance.nextId + 1 } := by
          rw [← h.1]
          split <;> rfl
        constructor
        · rw [KeyUnique, hatt]
          rw [List.pairwise_append]
          refine ⟨hK, List.pairwise_singleton _ _, ?_⟩
          intro a ha b hb
          have hb' : b = { newRecord db sid now with id := some db.attendance.nextId } := by
            simpa using hb
          subst hb'
          have hnone := (getTodayAttendance_eq_none_iff db sid now.dateISO).mp hex a ha
          simpa [newRecord] using hnone
        · rw [IdsOk, hatt]
          dsimp only
          constructor
          · simp only [List.map_append, List.map_cons, List.map_nil]
            rw [List.pairwise_append]
            refine ⟨hI.1, List.pairwise_singleton _ _, ?_⟩
            intro a ha b hb
            have hb' : b = some db.attendance.nextId := by simpa using hb
            subst hb'
            obtain ⟨x, hx, rfl⟩ := List.mem_map.mp ha
            obtain ⟨j, hj, hjlt⟩ := hI.2 x hx
            rw [hj]
            intro hcontra
            have : j = db.attendance.nextId := by simpa using hcontra
            omega
          · intro r hr
            rcases List.mem_append.mp hr with hold | hnew
            · obtain ⟨j, hj, hjlt⟩ := hI.2 r hold
              exact ⟨j, hj, by omega⟩
            · have hr' : r = { newRecord db sid now with id := some db.attendance.nextId } := by
                simpa using hnew
              subst hr'
              exact ⟨db.attendance.nextId, rfl, by omega⟩
    | some ex =>
        obtain ⟨hmem, hsid, hdate⟩ := getTodayAttendance_eq_some db sid now.dateISO ex hex
        obtain ⟨i, hexid, hibound⟩ := hI.2 ex hmem
        have hmid : (mergedRecord db ex now).id = some i := by
          rw [(mergedRecord_fields db ex now).1, hexid]
        have hany : db.attendance.records.any (fun x => x.id == some i) = true :=
          List.any_eq_true.mpr ⟨ex, hmem, by rw [hexid]; exact beq_self_eq_true _⟩
        rw [recordAttendance_some_eq db sid now st lm student ex hstu hex,
          put_replace_eq db.attendance (mergedRecord db ex now) i hmid hany] at h
        simp only [Except.ok.injEq, Prod.mk.injEq] at h
        have hatt : db'.attendance =
            { db.attendance with records := (db.attendance.records.map
                (fun x => if x.id == some i then mergedRecord db ex now else x)) } := by
          rw [← h.1]
        have hfields : ∀ x ∈ db.attendance.records,
            ((if x.id == some i then mergedRecord db ex now else x).studentId = x.studentId ∧
             (if x.id == some i then mergedRecord db ex now else x).dateISO = x.dateISO) ∧
            (if x.id == some i then mergedRecord db ex now else x).id = x.id := by
          intro x hx
          by_cases hid : (x.id == some i) = true
          · have hxi : x.id = some i := by simpa using hid
            have hxex : x = ex :=
              eq_of_mem_of_id_eq hI.1 x hx ex hmem (by rw [hxi, hexid])
            subst hxex
            simp only [hid, if_true]
            exact ⟨⟨(mergedRecord_fields db x now).2.1, (mergedRecord_fields db x now).2.2⟩,
              (mergedRecord_fields db x now).1⟩
          · simp [hid]
        constructor
        · rw [KeyUnique, hatt]
          simp only [List.pairwise_map]
          refine hK.imp_of_mem ?_
          intro a b ha hb hR
          have hA := (hfields a ha).1
          have hB := (hfields b hb).1
          rw [hA.1, hA.2, hB.1, hB.2]
          exact hR
        · rw [IdsOk, hatt]
          constructor
          · simp only [List.map_map]
            have hmapeq : db.attendance.records.map
                ((fun r => r.id) ∘ (fun x => if x.id == some i then mergedRecord db ex now else x)) =
                db.attendance.records.map (fun r => r.id) :=
              List.map_congr_left (fun x hx => (hfields x hx).2)
            rw [hmapeq]
            exact hI.1
          · intro r hr
            obtain ⟨x, hx, rfl⟩ := List.mem_map.mp hr
            obtain ⟨j, hj, hjlt⟩ := hI.2 x hx
            exact ⟨j, by rw [(hfields x hx).2, hj], hjlt⟩

/-- A successful `recordAttendance` call either inserts one fresh row (no
same-day record) or rewrites in place (same-day record present), reporting
`isRepeat` accordingly. -/
theorem recordAttendance_insert_or_merge (db : DB) (sid : String)
    (now : Timestamp) (st : Status) (lm : ℤ) (db' : DB) (res : CheckInResult)
    (hI : IdsOk db.attendance)
    (h : db.recordAttendance sid now st lm = Except.ok (db', res)) :
    (db.getTodayAttendance sid now.dateISO = none →
      db'.attendance.records.length = db.attendance.records.length + 1 ∧
      res.isRepeat = false) ∧
    (∀ ex, db.getTodayAttendance sid now.dateISO = some ex →
      db'.attendance.records.length = db.attendance.records.length ∧
      res.isRepeat = true) := by
  cases hstu : db.getStudent sid with
  | none =>
      unfold DB.recordAttendance at h
      rw [hstu] at h
      exact absurd h (by simp)
  | some student =>
    cases hex : db.getTodayAttendance sid now.dateISO with
    | none =>
        rw [recordAttendance_none_eq db sid now st lm student hstu hex,
          put_fresh_eq db.attendance (newRecord db sid now) rfl] at h
        simp only [Except.ok.injEq, Prod.mk.injEq] at h
        constructor
        · intro _
          constructor
          · have hatt : db'.attendance =
                { records := db.attendance.records ++
                    [{ newRecord db sid now with id := some db.attendance.nextId }],
                  nextId := db.attendance.nextId + 1 } := by
              rw [← h.1]
              split <;> rfl
            rw [hatt]
            simp
          · rw [← h.2]
        · intro ex' hex'
          exact Option.noConfusion hex'
    | some ex =>
        obtain ⟨hmem, _, _⟩ := getTodayAttendance_eq_some db sid now.dateISO ex hex
        obtain ⟨i, hexid, _⟩ := hI.2 ex hmem
        have hmid : (mergedRecord db ex now).id = some i := by
          rw [(mergedRecord_fields db ex now).1, hexid]
        have hany : db.attendance.records.any (fun x => x.id == some i) = true :=
          List.any_eq_true.mpr ⟨ex, hmem, by rw [hexid]; exact beq_self_eq_true _⟩
        rw [recordAttendance_some_eq db sid now st lm student ex hstu hex,
          put_replace_eq db.attendance (mergedRecord db ex now) i hmid hany] at h
        simp only [Except.ok.injEq, Prod.mk.injEq] at h
        constructor
        · intro hnone
          exact Option.noConfusion hnone
        · intro ex' hex'
          constructor
          · have hatt : db'.attendance =
                { db.attendance with records := (db.attendance.records.map
                    (fun x => if x.id == some i then mergedRecord db ex now else x)) } := by
              rw [← h.1]
            rw [hatt]
            simp
          · rw [← h.2]

/-- Any sequence of check-in calls preserves both store invariants. -/
theorem runCheckIns_preserves_inv (calls : List CheckInCall) (db : DB)
    (hK : KeyUnique db.attendance.records) (hI : IdsOk db.attendance) :
    KeyUnique (runCheckIns db calls).attendance.records ∧
    IdsOk (runCheckIns db calls).attendance := by
  induction calls generalizing db with
  | nil => exact ⟨hK, hI⟩
  | cons c rest ih =>
      cases hr : db.recordAttendance c.studentId c.now c.status c.lateMinutes with
      | ok p =>
          obtain ⟨d', res'⟩ := p
          have hinv := recordAttendance_preserves_inv db c.studentId c.now c.status
            c.lateMinutes d' res' hK hI hr
          have hstep : runCheckIns db (c :: rest) = runCheckIns d' rest := by
            unfold runCheckIns
            simp only [List.foldl_cons, hr]
          rw [hstep]
          exact ih d' hinv.1 hinv.2
      | error e =>
          have hstep : runCheckIns db (c :: rest) = runCheckIns db rest := by
            unfold runCheckIns
            simp only [List.foldl_cons, hr]
          rw [hstep]
          exact ih db hK hI

/-! ### Claim theorems: classifier -/

/-- Claim C4: `classify` is a pure function of (checkInTime, workStartTime,
lateThresholdMinutes); any check-in strictly before the work start yields
present with 0 late minutes; a check-in exactly `lateThresholdMinutes` after
the work start is still present (the threshold is exclusive); one minute
later the status is late with `lateMinutes = lateThresholdMinutes + 1`. -/
theorem calculateAttendanceStatus_spec (wh wm lateThresholdMin : ℕ) (t : ℚ) :
    (t < (wh : ℚ) * 60 + wm →
      calculateAttendanceStatus t (wh, wm) lateThresholdMin =
        { actualStatus := Status.present, calculatedLateMinutes := 0 }) ∧
    calculateAttendanceStatus ((wh : ℚ) * 60 + wm + lateThresholdMin)
        (wh, wm) lateThresholdMin =
      { actualStatus := Status.present, calculatedLateMinutes := 0 } ∧
    calculateAttendanceStatus ((wh : ℚ) * 60 + wm + lateThresholdMin + 1)
        (wh, wm) lateThresholdMin =
      { actualStatus := Status.late,
        calculatedLateMinutes := (lateThresholdMin : ℤ) + 1 } := by
  refine ⟨?_, ?_, ?_⟩
  · intro ht
    unfold calculateAttendanceStatus
    have hmax : max 0 (t - ((wh : ℚ) * 60 + wm)) = 0 :=
      max_eq_left (by linarith)
    simp only [hmax]
    rw [if_neg (not_lt.mpr (Nat.cast_nonneg lateThresholdMin))]
  · unfold calculateAttendanceStatus
    have hnn : (0 : ℚ) ≤ (lateThresholdMin : ℚ) := Nat.cast_nonneg _
    have hmax : max 0 ((wh : ℚ) * 60 + wm + lateThresholdMin - ((wh : ℚ) * 60 + wm)) =
        (lateThresholdMin : ℚ) := by
      rw [max_eq_right (by linarith)]
      ring
    simp only [hmax]
    rw [if_neg (lt_irrefl _)]
  · unfold calculateAttendanceStatus
    have hnn : (0 : ℚ) ≤ (lateThresholdMin : ℚ) := Nat.cast_nonneg _
    have hmax : max 0 ((wh : ℚ) * 60 + wm + lateThresholdMin + 1 - ((wh : ℚ) * 60 + wm)) =
        (lateThresholdMin : ℚ) + 1 := by
      rw [max_eq_right (by linarith)]
      ring
    simp only [hmax]
    rw [if_pos (by linarith)]
    have : round ((lateThresholdMin : ℚ) + 1) = (lateThresholdMin : ℤ) + 1 := by
      rw [round_add_one, round_natCast]
    rw [this]

/-- Witness for C4: the three parts at work start 07:00, threshold 15,
check-in 05:00 (300 minutes). -/
theorem calculateAttendanceStatus_spec_witness :
    calculateAttendanceStatus (300 : ℚ) (7, 0) 15 =
      { actualStatus := Status.present, calculatedLateMinutes := 0 } :=
  (calculateAttendanceStatus_spec 7 0 15 300).1 (by norm_num)

/-! ### Claim theorems: ledger write path -/

/-- Claim C1: starting from any well-formed store, after any sequence of
check-in calls at most one attendance record exists per
(studentId, calendarDate); moreover at any such state, a call finding no
same-day record inserts exactly one new record (isRepeat = false), and a
call finding one merges in place — no second insert — and reports
isRepeat = true. -/
theorem recordCheckIn_at_most_one_per_day (db : DB)
    (hK : KeyUnique db.attendance.records) (hI : IdsOk db.attendance)
    (calls : List CheckInCall) :
    KeyUnique (runCheckIns db calls).attendance.records ∧
    ∀ sid now st lm db' res,
      (runCheckIns db calls).recordAttendance sid now st lm = Except.ok (db', res) →
      ((runCheckIns db calls).getTodayAttendance sid now.dateISO = none →
        db'.attendance.records.length =
          (runCheckIns db calls).attendance.records.length + 1 ∧
        res.isRepeat = false) ∧
      (∀ ex, (runCheckIns db calls).getTodayAttendance sid now.dateISO = some ex →
        db'.attendance.records.length =
          (runCheckIns db calls).attendance.records.length ∧
        res.isRepeat = true) := by
  obtain ⟨hK', hI'⟩ := runCheckIns_preserves_inv calls db hK hI
  refine ⟨hK', ?_⟩
  intro sid now st lm db' res h
  exact recordAttendance_insert_or_merge (runCheckIns db calls) sid now st lm
    db' res hI' h

/-- Claim C2: a repeat check-in updates the stored record in place:
`checkInTime` becomes the new time, the status is late when either the
existing status or the new classification is late (otherwise the existing
status is kept), `lateMinutes` becomes the max of the existing and newly
classified values, and the record is marked as a repeat. -/
theorem recordAttendance_repeat_merges (db : DB) (sid : String)
    (now : Timestamp) (st : Status) (lm : ℤ) (student : Student)
    (ex : AttendanceRecord)
    (hs : db.getStudent sid = some student)
    (hex : db.getTodayAttendance sid now.dateISO = some ex)
    (hI : IdsOk db.attendance) :
    ∃ db' res, db.recordAttendance sid now st lm = Except.ok (db', res) ∧
      res.isRepeat = true ∧
      res.record.isRepeat = true ∧
      res.record.timeISO = now.minutesOfDay ∧
      res.record.status =
        (if (calculateAttendanceStatus now.minutesOfDay db.settings.workStart
              db.settings.lateThreshold).actualStatus = Status.late ∨
            ex.status = Status.late
         then Status.late else ex.status) ∧
      res.record.lateMinutes =
        max ex.lateMinutes
          (calculateAttendanceStatus now.minutesOfDay db.settings.workStart
            db.settings.lateThreshold).calculatedLateMinutes ∧
      res.record.id = ex.id ∧
      db'.attendance.records =
        (db.attendance.records.map
          (fun x => if x.id == ex.id then res.record else x)) ∧
      db'.attendance.nextId = db.attendance.nextId := by
  obtain ⟨hmem, _, _⟩ := getTodayAttendance_eq_some db sid now.dateISO ex hex
  obtain ⟨i, hexid, _⟩ := hI.2 ex hmem
  have hmid : (mergedRecord db ex now).id = some i := by
    rw [(mergedRecord_fields db ex now).1, hexid]
  have hany : db.attendance.records.any (fun x => x.id == some i) = true :=
    List.any_eq_true.mpr ⟨ex, hmem, by rw [hexid]; exact beq_self_eq_true _⟩
  refine ⟨_, _, by
      rw [recordAttendance_some_eq db sid now st lm student ex hs hex], rfl, rfl, rfl,
    ?_, rfl, (mergedRecord_fields db ex now).1, ?_, ?_⟩
  · show (mergedRecord db ex now).status = _
    unfold mergedRecord
    by_cases hlate : (calculateAttendanceStatus now.minutesOfDay
        db.settings.workStart db.settings.lateThreshold).actualStatus = Status.late
    · simp [hlate]
    · by_cases hexlate : ex.status = Status.late
      · simp [hlate, hexlate]
      · simp [hlate, hexlate]
  · show ((db.attendance.put (mergedRecord db ex now)).1).records = _
    rw [put_replace_eq db.attendance (mergedRecord db ex now) i hmid hany]
    rw [hexid]
  · show ((db.attendance.put (mergedRecord db ex now)).1).nextId = _
    rw [put_replace_eq db.attendance (mergedRecord db ex now) i hmid hany]

/-- Claim C3: the student's lateness aggregates (`lateDays`,
`lateMinutesTotal`) change exactly when a brand-new record with status late
is created — then by +1 day and + the record's late minutes — and never on
a repeat check-in, so they grow at most once per calendar day. -/
theorem recordAttendance_aggregates (db : DB) (sid : String) (now : Timestamp)
    (st : Status) (lm : ℤ) (student : Student)
    (hs : db.getStudent sid = some student) :
    ∀ db' res, db.recordAttendance sid now st lm = Except.ok (db', res) →
      ((db.getTodayAttendance sid now.dateISO = none ∧
          res.record.status = Status.late →
        db'.students =
          (db.students.map (fun u =>
            if u.id == sid then
              { u with
                lateDays := student.lateDays + 1,
                lateMinutesTotal := student.lateMinutesTotal + res.record.lateMinutes }
            else u))) ∧
       (db.getTodayAttendance sid now.dateISO = none ∧
          res.record.status ≠ Status.late →
        db'.students = db.students) ∧
       (∀ ex, db.getTodayAttendance sid now.dateISO = some ex →
        db'.students = db.students)) := by
  intro db' res h
  cases hex : db.getTodayAttendance sid now.dateISO with
  | some ex =>
      rw [recordAttendance_some_eq db sid now st lm student ex hs hex] at h
      simp only [Except.ok.injEq, Prod.mk.injEq] at h
      refine ⟨fun hc => Option.noConfusion hc.1, fun hc => Option.noConfusion hc.1,
        fun ex' _ => ?_⟩
      rw [← h.1]
  | none =>
      rw [recordAttendance_none_eq db sid now st lm student hs hex] at h
      simp only [Except.ok.injEq, Prod.mk.injEq] at h
      have hrec : res.record = { newRecord db sid now with
          id := some (db.attendance.put (newRecord db sid now)).2 } := by
        rw [← h.2]
      have hstat : res.record.status =
          (calculateAttendanceStatus now.minutesOfDay db.settings.workStart
            db.settings.lateThreshold).actualStatus := by
        rw [hrec]
        rfl
      have hlm : res.record.lateMinutes =
          (calculateAttendanceStatus now.minutesOfDay db.settings.workStart
            db.settings.lateThreshold).calculatedLateMinutes := by
        rw [hrec]
        rfl
      refine ⟨fun hc => ?_, fun hc => ?_, fun ex' hex' => Option.noConfusion hex'⟩
      · have hlate : (calculateAttendanceStatus now.minutesOfDay
            db.settings.workStart db.settings.lateThreshold).actualStatus =
            Status.late := by rw [← hstat]; exact hc.2
        have hpos : 0 < (calculateAttendanceStatus now.minutesOfDay
            db.settings.workStart db.settings.lateThreshold).calculatedLateMinutes :=
          classifier_late_pos now.minutesOfDay db.settings.workStart
            db.settings.lateThreshold (one_le_lateThreshold db.settings) hlate
        rw [← h.1, if_pos ⟨hlate, hpos⟩, hlm]
        rfl
      · have hnotlate : ¬ ((calculateAttendanceStatus now.minutesOfDay
            db.settings.workStart db.settings.lateThreshold).actualStatus =
            Status.late) := by rw [← hstat]; exact hc.2
        rw [← h.1, if_neg (fun hand => hnotlate hand.1)]

/-! ### Claim theorems: caller-supplied status is ignored -/

/-- Claim C10: `recordAttendance`'s caller-supplied `status` and
`lateMinutes` arguments have no influence: two calls differing only in those
arguments return identical results (same stored record, same aggregates,
same return value), because status and lateness are recomputed internally. -/
theorem recordAttendance_ignores_caller_status (db : DB) (studentId : String)
    (now : Timestamp) (st1 st2 : Status) (lm1 lm2 : ℤ) :
    db.recordAttendance studentId now st1 lm1 =
      db.recordAttendance studentId now st2 lm2 := rfl

/-! ### Concrete scenario: work start 07:00, threshold 15 -/

/-- Student S2 of the spec scenario, before any check-in. -/
def studentS2 : Student :=
  { id := "S2", name := "Student Two", grade := "1", className := "A",
    guardianPhone := "", lateDays := 0, lateMinutesTotal := 0 }

/-- Fresh database: one registered student, empty ledger, work start 07:00,
late threshold 15 minutes. -/
def scenarioDB : DB :=
  { students := [studentS2],
    attendance := { records := [], nextId := 0 },
    settings := { workStartHHmm := some (7, 0), lateThresholdMin := some 15 },
    sessions := [] }

/-- 07:20 on day 0 (440 minutes after midnight). -/
def time0720 : Timestamp := { dateISO := 0, minutesOfDay := 440 }

/-- 07:35 on day 0 (455 minutes after midnight). -/
def time0735 : Timestamp := { dateISO := 0, minutesOfDay := 455 }

/-- Classifier value at 07:20: 20 minutes past work start. -/
theorem calc_0720 : calculateAttendanceStatus (440 : ℚ) (7, 0) 15 =
    { actualStatus := Status.late, calculatedLateMinutes := 20 } := by
  rw [show (440 : ℚ) = ((440 : ℕ) : ℚ) by norm_cast, calculateAttendanceStatus_nat]
  decide

/-- Classifier value at 07:35: 35 minutes past work start. -/
theorem calc_0735 : calculateAttendanceStatus (455 : ℚ) (7, 0) 15 =
    { actualStatus := Status.late, calculatedLateMinutes := 35 } := by
  rw [show (455 : ℚ) = ((455 : ℕ) : ℚ) by norm_cast, calculateAttendanceStatus_nat]
  decide

/-- The record stored by the 07:20 check-in. -/
def rec0720 : AttendanceRecord :=
  { id := some 0, studentId := "S2", dateISO := 0, timeISO := 440,
    status := Status.late, lateMinutes := 20, sessionId := none,
    isRepeat := false, reason := "", markedBy := none, isManual := false }

/-- S2 after the 07:20 check-in incremented the aggregates. -/
def studentS2Late : Student :=
  { studentS2 with lateDays := 1, lateMinutesTotal := 20 }

/-- Database state after the 07:20 check-in. -/
def dbAfter0720 : DB :=
  { students := [studentS2Late],
    attendance := { records := [rec0720], nextId := 1 },
    settings := scenarioDB.settings, sessions := [] }

/-- Evaluation of the first (07:20) check-in. -/
theorem run0720 : scenarioDB.recordAttendance "S2" time0720 Status.present 0 =
    Except.ok (dbAfter0720,
      { record := rec0720, isRepeat := false, student := studentS2 }) := by
  unfold DB.recordAttendance
  simp [scenarioDB, time0720, studentS2, DB.getStudent, DB.getTodayAttendance,
    Settings.workStart, Settings.lateThreshold, DB.getCurrentSessionId,
    AttendanceStore.put, DB.updateStudent, calc_0720, rec0720, dbAfter0720,
    studentS2Late]

/-- The record after the 07:35 repeat merged into it. -/
def rec0735 : AttendanceRecord :=
  { rec0720 with timeISO := 455, lateMinutes := 35, isRepeat := true }

/-- Database state after the 07:35 repeat check-in. -/
def dbAfter0735 : DB :=
  { dbAfter0720 with attendance := { records := [rec0735], nextId := 1 } }

/-- Evaluation of the repeat (07:35) check-in. -/
theorem run0735 : dbAfter0720.recordAttendance "S2" time0735 Status.present 0 =
    Except.ok (dbAfter0735,
      { record := rec0735, isRepeat := true, student := studentS2Late }) := by
  unfold DB.recordAttendance
  simp [scenarioDB, time0735, studentS2, DB.getStudent, DB.getTodayAttendance,
    Settings.workStart, Settings.lateThreshold, DB.getCurrentSessionId,
    AttendanceStore.put, DB.updateStudent, calc_0735, rec0720, rec0735,
    dbAfter0720, dbAfter0735, studentS2Late]

/-! ### Claim theorems: concrete scenario -/

/-- Claim C5 fails on the code: the 07:20 check-in stores
`lateMinutes = 20` (minutes past work start, as the code rounds the whole
difference), not 5 (minutes past the threshold) as the claim states. -/
theorem scenario_lateMinutes_counterexample :
    ∃ db1 res1,
      scenarioDB.recordAttendance "S2" time0720 Status.present 0 =
        Except.ok (db1, res1) ∧
      res1.record.lateMinutes = 20 ∧ ¬ res1.record.lateMinutes = 5 :=
  ⟨dbAfter0720, { record := rec0720, isRepeat := false, student := studentS2 },
    run0720, by decide, by decide⟩

/-- Claim C5 (amended): with work start 07:00 and threshold 15, a first
check-in at 07:20 stores a late record with `lateMinutes = 20` (not 5) and
increments S2's aggregates to lateDays = 1, lateMinutesTotal = 20; the
07:35 repeat merges in place, keeps status late, raises `lateMinutes` to 35
(not 20), and leaves the aggregates at their incremented values. -/
theorem scenario_amended :
    ∃ db1 res1 db2 res2,
      scenarioDB.recordAttendance "S2" time0720 Status.present 0 =
        Except.ok (db1, res1) ∧
      res1.record.status = Status.late ∧
      res1.record.lateMinutes = 20 ∧
      res1.isRepeat = false ∧
      db1.getStudent "S2" = some studentS2Late ∧
      db1.recordAttendance "S2" time0735 Status.present 0 =
        Except.ok (db2, res2) ∧
      res2.isRepeat = true ∧
      res2.record.status = Status.late ∧
      res2.record.lateMinutes = 35 ∧
      res2.record.id = res1.record.id ∧
      db2.attendance.records.length = 1 ∧
      db2.getStudent "S2" = some studentS2Late :=
  ⟨dbAfter0720, { record := rec0720, isRepeat := false, student := studentS2 },
    dbAfter0735, { record := rec0735, isRepeat := true, student := studentS2Late },
    run0720, by decide, by decide, rfl, by decide, run0735, rfl, by decide,
    by decide, by decide, by decide, by decide⟩

/-! ### markAbsent path lemmas -/

/-- The absent record `markAbsent` builds, as stored (with its fresh id). -/
def absentRecordOf (db : DB) (studentId : String) (dateISO : ℕ)
    (now : Timestamp) (sessionId : Option ℕ) (reason : String) :
    AttendanceRecord :=
  { id := some db.attendance.nextId, studentId := studentId, dateISO := dateISO,
    timeISO := now.minutesOfDay, status := Status.absent, lateMinutes := 0,
    sessionId := sessionId, isRepeat := false, reason := reason,
    markedBy := some "admin", isManual := true }

/-- `markAbsent` with no same-day record: inserts the absent row. -/
theorem markAbsent_none_eq (db : DB) (sid : String) (d : ℕ) (now : Timestamp)
    (sess : Option ℕ) (rsn : String)
    (hno : db.attendance.records.find?
      (fun r => r.studentId == sid && r.dateISO == d) = none) :
    db.markAbsent sid d now sess rsn =
      ({ db with attendance :=
          { records := db.attendance.records ++ [absentRecordOf db sid d now sess rsn],
            nextId := db.attendance.nextId + 1 } },
       MarkAbsentResult.ok (absentRecordOf db sid d now sess rsn)) := by
  unfold DB.markAbsent
  rw [hno]
  rfl

/-- `markAbsent` with an existing same-day record: conflict, no write. -/
theorem markAbsent_some_eq (db : DB) (sid : String) (d : ℕ) (now : Timestamp)
    (sess : Option ℕ) (rsn : String) (ex : AttendanceRecord)
    (hsome : db.attendance.records.find?
      (fun r => r.studentId == sid && r.dateISO == d) = some ex) :
    db.markAbsent sid d now sess rsn =
      (db, MarkAbsentResult.conflict "سجل الحضور موجود مسبقاً") := by
  unfold DB.markAbsent
  rw [hsome]

/-! ### Claim theorems: markAbsent and error handling -/

/-- Claim C8: for a registered student with no record that day, `markAbsent`
creates an absent record with `lateMinutes = 0`; calling it again for the
same student and date returns the duplicate-record conflict and changes
nothing. -/
theorem markAbsent_creates_then_conflicts (db : DB) (sid : String) (d : ℕ)
    (now1 now2 : Timestamp) (sess1 sess2 : Option ℕ) (rsn1 rsn2 : String)
    (student : Student)
    (hs : db.getStudent sid = some student)
    (hno : db.attendance.records.find?
      (fun r => r.studentId == sid && r.dateISO == d) = none) :
    ∃ db' rec,
      db.markAbsent sid d now1 sess1 rsn1 = (db', MarkAbsentResult.ok rec) ∧
      rec.status = Status.absent ∧ rec.lateMinutes = 0 ∧
      rec.studentId = sid ∧ rec.dateISO = d ∧
      db'.attendance.records = db.attendance.records ++ [rec] ∧
      db'.markAbsent sid d now2 sess2 rsn2 =
        (db', MarkAbsentResult.conflict "سجل الحضور موجود مسبقاً") := by
  refine ⟨_, absentRecordOf db sid d now1 sess1 rsn1,
    markAbsent_none_eq db sid d now1 sess1 rsn1 hno, rfl, rfl, rfl, rfl, rfl, ?_⟩
  refine markAbsent_some_eq _ _ _ _ _ _
    (absentRecordOf db sid d now1 sess1 rsn1) ?_
  show (db.attendance.records ++ [absentRecordOf db sid d now1 sess1 rsn1]).find? _ = _
  rw [List.find?_append, hno]
  simp [absentRecordOf]

/-- Witness for C8 at the concrete scenario database (student S2, day 3). -/
theorem markAbsent_creates_then_conflicts_witness :
    ∃ db' rec,
      scenarioDB.markAbsent "S2" 3 time0720 none "" =
        (db', MarkAbsentResult.ok rec) ∧
      rec.status = Status.absent ∧ rec.lateMinutes = 0 ∧
      rec.studentId = "S2" ∧ rec.dateISO = 3 ∧
      db'.attendance.records = scenarioDB.attendance.records ++ [rec] ∧
      db'.markAbsent "S2" 3 time0735 none "" =
        (db', MarkAbsentResult.conflict "سجل الحضور موجود مسبقاً") :=
  markAbsent_creates_then_conflicts scenarioDB "S2" 3 time0720 time0735
    none none "" "" studentS2 rfl rfl

/-- Claim C7 fails on the code for `markAbsent`: it never consults the
student directory, so marking an unknown id absent succeeds and writes a
ledger record instead of failing with StudentNotFound. -/
theorem markAbsent_unknown_student_counterexample :
    scenarioDB.getStudent "GHOST" = none ∧
    (scenarioDB.markAbsent "GHOST" 0 time0720 none "").2 =
      MarkAbsentResult.ok (absentRecordOf scenarioDB "GHOST" 0 time0720 none "") ∧
    (scenarioDB.markAbsent "GHOST" 0 time0720 none "").1.attendance.records ≠ [] := by
  refine ⟨rfl, ?_, ?_⟩
  · rw [markAbsent_none_eq scenarioDB "GHOST" 0 time0720 none "" rfl]
  · rw [markAbsent_none_eq scenarioDB "GHOST" 0 time0720 none "" rfl]
    simp

/-- Claim C7 (amended): an unknown student id makes `recordCheckIn` fail
with the student-not-found error before any write, but `markAbsent` does
not check the directory: with no same-day record it succeeds and inserts an
absent record even for an unregistered id. -/
theorem unknown_student_behavior (db : DB) (sid : String) (now : Timestamp)
    (st : Status) (lm : ℤ) (d : ℕ) (sess : Option ℕ) (rsn : String)
    (hstu : db.getStudent sid = none) :
    db.recordAttendance sid now st lm = Except.error "الطالب غير موجود" ∧
    (db.attendance.records.find?
        (fun r => r.studentId == sid && r.dateISO == d) = none →
      db.markAbsent sid d now sess rsn =
        ({ db with attendance :=
            { records := db.attendance.records ++ [absentRecordOf db sid d now sess rsn],
              nextId := db.attendance.nextId + 1 } },
         MarkAbsentResult.ok (absentRecordOf db sid d now sess rsn))) := by
  constructor
  · unfold DB.recordAttendance
    rw [hstu]
  · intro hno
    exact markAbsent_none_eq db sid d now sess rsn hno

/-- Witness for amended C7 at the concrete scenario database. -/
theorem unknown_student_behavior_witness :
    scenarioDB.recordAttendance "GHOST" time0720 Status.present 0 =
      Except.error "الطالب غير موجود" :=
  (unknown_student_behavior scenarioDB "GHOST" time0720 Status.present 0 0
    none "" rfl).1

/-! ### Claim theorems: daily statistics -/

/-- Claim C9: with no attendance records for the day, `getTodayStats`
reports 0 present, 0 late, N absent and ratio 0 — also for an empty
directory. -/
theorem getTodayStats_no_records (db : DB) (d : ℕ)
    (h : db.attendance.records.filter (fun r => r.dateISO == d) = []) :
    (db.getTodayStats d).presentCount = 0 ∧
    (db.getTodayStats d).lateCount = 0 ∧
    (db.getTodayStats d).absentCount = (db.students.length : ℤ) ∧
    (db.getTodayStats d).attendanceRatio = 0 := by
  simp only [DB.getTodayStats, h]
  refine ⟨rfl, rfl, by simp, ?_⟩
  simp only [List.filter_nil, List.length_nil]
  norm_num

/-- An empty database (no students, no records). -/
def emptyDB : DB :=
  { students := [],
    attendance := { records := [], nextId := 0 },
    settings := { workStartHHmm := none, lateThresholdMin := none },
    sessions := [] }

/-- Witness for C9 on the empty directory. -/
theorem getTodayStats_no_records_witness :
    (emptyDB.getTodayStats 0).presentCount = 0 ∧
    (emptyDB.getTodayStats 0).lateCount = 0 ∧
    (emptyDB.getTodayStats 0).absentCount = (emptyDB.students.length : ℤ) ∧
    (emptyDB.getTodayStats 0).attendanceRatio = 0 :=
  getTodayStats_no_records emptyDB 0 rfl

/-- Claim C6 fails on the code: for a day with exactly one record,
`getTodayStats` reports that record as the first check-in but reports the
last student as null (its id equals the first record's id). -/
theorem getTodayStats_single_record_counterexample :
    dbAfter0720.attendance.records.length = 1 ∧
    (dbAfter0720.getTodayStats 0).firstStudent =
      some { name := "Student Two", time := 440 } ∧
    (dbAfter0720.getTodayStats 0).lastStudent = none := by
  refine ⟨rfl, ?_, ?_⟩ <;>
  · unfold DB.getTodayStats
    simp [dbAfter0720, rec0720, studentS2Late, studentS2, DB.getStudent]

/-- Claim C6 (amended): on a day with exactly one attendance record,
`getTodayStats` reports that record as the first check-in and reports the
last student as null — the last student is only populated when its record
id differs from the first record's. -/
theorem getTodayStats_single_record (db : DB) (d : ℕ) (r : AttendanceRecord)
    (h : db.attendance.records.filter (fun x => x.dateISO == d) = [r]) :
    (db.getTodayStats d).firstStudent =
      some { name := ((db.getStudent r.studentId).map (fun s => s.name)).getD "غير محدد",
             time := r.timeISO } ∧
    (db.getTodayStats d).lastStudent = none := by
  simp only [DB.getTodayStats, h]
  simp

/-- Witness for amended C6 at the one-record scenario state. -/
theorem getTodayStats_single_record_witness :
    (dbAfter0720.getTodayStats 0).firstStudent =
      some { name := ((dbAfter0720.getStudent rec0720.studentId).map
               (fun s => s.name)).getD "غير محدد",
             time := rec0720.timeISO } ∧
    (dbAfter0720.getTodayStats 0).lastStudent = none :=
  getTodayStats_single_record dbAfter0720 0 rec0720 rfl

/-! ### Witnesses for the ledger write-path claims -/

/-- Witness for C1: the invariant holds after the two-call scenario run
from the fresh store. -/
theorem recordCheckIn_at_most_one_per_day_witness :
    KeyUnique (runCheckIns scenarioDB
      [{ studentId := "S2", now := time0720, status := Status.present, lateMinutes := 0 },
       { studentId := "S2", now := time0735, status := Status.present, lateMinutes := 0 }]).attendance.records :=
  (recordCheckIn_at_most_one_per_day scenarioDB List.Pairwise.nil
    ⟨List.Pairwise.nil, fun r hr => absurd hr (List.not_mem_nil r)⟩ _).1

/-- Witness for C2: the 07:35 repeat call on the one-record state. -/
theorem recordAttendance_repeat_merges_witness :
    ∃ db' res,
      dbAfter0720.recordAttendance "S2" time0735 Status.present 0 =
        Except.ok (db', res) ∧
      res.isRepeat = true ∧ res.record.lateMinutes = 35 := by
  obtain ⟨db', res, heq, hrep, _, _, _, hlm, _⟩ :=
    recordAttendance_repeat_merges dbAfter0720 "S2" time0735 Status.present 0
      studentS2Late rec0720 rfl rfl
      ⟨List.pairwise_singleton _ _,
        fun r hr => by
          simp only [dbAfter0720, List.mem_singleton] at hr
          subst hr
          exact ⟨0, rfl, Nat.one_pos⟩⟩
  refine ⟨db', res, heq, hrep, ?_⟩
  rw [hlm]
  rw [show (calculateAttendanceStatus time0735.minutesOfDay
      dbAfter0720.settings.workStart dbAfter0720.settings.lateThreshold) =
      calculateAttendanceStatus (455 : ℚ) (7, 0) 15 from rfl, calc_0735]
  decide

/-- Witness for C3: the 07:20 first check-in increments S2's aggregates. -/
theorem recordAttendance_aggregates_witness :
    dbAfter0720.students =
      (scenarioDB.students.map (fun u =>
        if u.id == "S2" then
          { u with
            lateDays := studentS2.lateDays + 1,
            lateMinutesTotal := studentS2.lateMinutesTotal + rec0720.lateMinutes }
        else u)) :=
  (recordAttendance_aggregates scenarioDB "S2" time0720 Status.present 0
      studentS2 rfl dbAfter0720
      { record := rec0720, isRepeat := false, student := studentS2 }
      run0720).1 ⟨rfl, rfl⟩

end Haithm
